import Mathlib

/-!
Verification development for the PyLLM-Librarian-Sorter ebook organizer.

The program is shallowly embedded as follows:
* Filesystem paths are lists of name components relative to the library root
  (so the file `ToBooks\Fiction\a.pdf` is `["Fiction", "a.pdf"]` and the
  library root itself is `[]`).
* The filesystem is the list of directories in `os.walk` traversal order,
  each paired with the names of the plain files it directly contains
  (structure `FS`).  `os.walk` over a subtree corresponds to filtering the
  directory list by path; file moves are surgery on this list.
* External effects (the Ollama oracle, text extraction, the web search, the
  Tk dialog, and filesystem faults of `os.makedirs` / `os.rename`) are inputs
  supplied per file through the `FileEnv` structure; the pure logic applied
  to those inputs is translated from the source line by line.
-/

namespace EbookOrganizer

/-- Sentinel folder name for files that cannot be categorized
(`UNSORTED_FOLDER` in the source). -/
def UNSORTED_FOLDER : String := "UNSORTED"

/-- Supported ebook extensions (`EBOOK_EXTENSIONS` in the source). -/
def EBOOK_EXTENSIONS : List String :=
  [".pdf", ".epub", ".mobi", ".txt", ".azw", ".azw3", ".fb2", ".lit",
   ".pdb", ".tcr", ".djvu", ".cbr"]

/-- Python `str.lower`, modelled on the character list of the string. -/
def pyLower (s : String) : String := String.mk (s.data.map Char.toLower)

/-- Python `str.endswith`, modelled on character lists. -/
def pyEndsWith (s suf : String) : Bool := suf.data.isSuffixOf s.data

/-- The extension test `any(file.lower().endswith(ext) for ext in EBOOK_EXTENSIONS)`
used throughout the source. -/
def isEbookFile (file : String) : Bool :=
  EBOOK_EXTENSIONS.any (fun ext => pyEndsWith (pyLower file) ext)

/-- Index of the last dot in a character list (for `pathlib` suffix/stem). -/
def last_dot_index (cs : List Char) : Option Nat :=
  ((cs.enum.filter (fun q => q.2 = '.')).map (fun q => q.1)).getLast?

/-- Python `Path(name).suffix`: the final extension including the dot, empty
unless the last dot is at an interior position. -/
def path_suffix (name : String) : String :=
  match last_dot_index name.data with
  | none => ""
  | some i =>
    if 0 < i ∧ i + 1 < name.data.length then String.mk (name.data.drop i) else ""

/-- Python `Path(name).stem`: the name with `path_suffix` removed. -/
def path_stem (name : String) : String :=
  match last_dot_index name.data with
  | none => name
  | some i =>
    if 0 < i ∧ i + 1 < name.data.length then String.mk (name.data.take i) else name

/-- The filesystem: every directory of the library (in `os.walk` order),
as a path paired with the names of the plain files directly inside it.
The library root is the directory with path `[]`. -/
structure FS where
  dirs : List (List String × List String)
deriving DecidableEq, Repr

/-- Last path component, mirroring `os.path.basename`. -/
def basename (p : List String) : String := p.getLastD ""

/-- Does a directory with exactly this path exist? -/
def FS.hasDir (fs : FS) (p : List String) : Bool :=
  fs.dirs.any (fun d => decide (d.1 = p))

/-- Files directly inside the directory `p` (empty if no such directory). -/
def FS.filesAt (fs : FS) (p : List String) : List String :=
  (((fs.dirs.find? (fun d => decide (d.1 = p))).map (fun d => d.2)).getD [])

/-- Does a plain file with exactly this path exist? -/
def FS.fileExists (fs : FS) (p : List String) : Bool :=
  fs.dirs.any (fun d => decide (d.1 = p.dropLast) && decide (p.getLastD "" ∈ d.2))

/-- Python `os.path.exists`: true for directories and for files. -/
def FS.pathExists (fs : FS) (p : List String) : Bool :=
  fs.hasDir p || fs.fileExists p

/-- Effect of a successful `os.makedirs` creating an empty directory. -/
def FS.addDir (fs : FS) (p : List String) : FS :=
  ⟨fs.dirs ++ [(p, [])]⟩

/-- Add a file named `name` to the directory `p`. -/
def FS.addFile (fs : FS) (p : List String) (name : String) : FS :=
  if fs.hasDir p then
    ⟨fs.dirs.map (fun d => if d.1 = p then (d.1, d.2 ++ [name]) else d)⟩
  else ⟨fs.dirs ++ [(p, [name])]⟩

/-- Remove the file with full path `p`. -/
def FS.removeFile (fs : FS) (p : List String) : FS :=
  ⟨fs.dirs.map (fun d =>
    if d.1 = p.dropLast then (d.1, d.2.erase (p.getLastD "")) else d)⟩

/-- Total number of directory and file entries, used as rename-loop fuel. -/
def FS.entryCount (fs : FS) : Nat :=
  fs.dirs.length + (fs.dirs.map (fun d => d.2.length)).sum

/-- Model of `get_all_ebooks`: every file under the root whose lowercased name ends in
a supported extension, in traversal order. -/
def get_all_ebooks (fs : FS) : List (List String) :=
  fs.dirs.flatMap (fun d => (d.2.filter isEbookFile).map (fun f => d.1 ++ [f]))

/-- The fixed skip list of `is_genre_folder`. -/
def system_folders : List String :=
  ["System Volume Information", "$RECYCLE.BIN", "RECYCLER",
   "Windows", "Program Files", "Program Files (x86)", "ProgramData",
   "Users", "Documents and Settings", "AppData", "Temp", "tmp",
   ".git", ".svn", "__pycache__", "node_modules"]

/-- Python `str.startswith`, modelled on character lists. -/
def pyStartsWith (s pre : String) : Bool := pre.data.isPrefixOf s.data

/-- Model of `is_genre_folder`: a folder counts as a genre folder when it is not
hidden, not a known system folder, not the UNSORTED folder, and directly
contains at least one ebook file. -/
def is_genre_folder (folder_name : String) (files : List String) : Bool :=
  if pyStartsWith folder_name "." then false
  else if folder_name ∈ system_folders then false
  else if folder_name = UNSORTED_FOLDER then false
  else files.any isEbookFile

/-- One row of the CSV manifest (the `ProcessingDate` field, filled with the
wall clock by the source, is outside the model). -/
structure CsvRow where
  Filename : String
  OriginalPath : List String
  Genre : String
deriving DecidableEq, Repr

/-- The progress record: processed paths, CSV rows, genre counts.  The
processed set is kept as an insertion-ordered duplicate-free list, the genre
statistics dictionary as an association list in insertion order. -/
structure Progress where
  processed_files : List (List String)
  csv_data : List CsvRow
  genre_stats : List (String × Nat)
deriving DecidableEq, Repr

/-- Python `set.add`. -/
def add_processed (s : List (List String)) (p : List String) : List (List String) :=
  if p ∈ s then s else s ++ [p]

/-- The dictionary update `genre_stats[genre] += 1` / `genre_stats[genre] = 1`
appearing at all four recording sites of the source. -/
def incr_stat (stats : List (String × Nat)) (genre : String) : List (String × Nat) :=
  if stats.any (fun kv => decide (kv.1 = genre)) then
    stats.map (fun kv => if kv.1 = genre then (kv.1, kv.2 + 1) else kv)
  else stats ++ [(genre, 1)]

/-- Dictionary lookup `genre_stats[genre]`, defaulting to 0 when absent. -/
def lookup_stat (stats : List (String × Nat)) (genre : String) : Nat :=
  (((stats.find? (fun kv => decide (kv.1 = genre))).map (fun kv => kv.2)).getD 0)

/-- The record step shared by all four sites that mark a file processed:
add the path to the processed set, append one CSV row, bump one genre count. -/
def add_record (pr : Progress) (filename : String) (path : List String)
    (genre : String) : Progress :=
  { processed_files := add_processed pr.processed_files path
    csv_data := pr.csv_data ++ [⟨filename, path, genre⟩]
    genre_stats := incr_stat pr.genre_stats genre }

/-- The files recorded by the genre-folder pass of `detect_existing_progress`,
as (directory, filename, genre) triples in scan order. -/
def detect_main_hits (fs : FS) : List (List String × String × String) :=
  fs.dirs.flatMap (fun d =>
    if d.1 = [] then []
    else if is_genre_folder (basename d.1) d.2 then
      (d.2.filter isEbookFile).map (fun f => (d.1, f, basename d.1))
    else [])

/-- The files recorded by the UNSORTED pass of `detect_existing_progress`:
the walk of the UNSORTED subtree, guarded by its existence. -/
def detect_unsorted_hits (fs : FS) : List (List String × String × String) :=
  if fs.pathExists [UNSORTED_FOLDER] then
    fs.dirs.flatMap (fun d =>
      if (d.1.take 1 = [UNSORTED_FOLDER] : Prop) then
        (d.2.filter isEbookFile).map (fun f => (d.1, f, UNSORTED_FOLDER))
      else [])
  else []

/-- Record one detected file (processed set, CSV row, genre count). -/
def record_hit (pr : Progress) (h : List String × String × String) : Progress :=
  add_record pr h.2.1 (h.1 ++ [h.2.1]) h.2.2

/-- Model of `detect_existing_progress`: first-run reconciliation, scanning genre
folders and then the UNSORTED folder. -/
def detect_existing_progress (fs : FS) : Progress :=
  (detect_main_hits fs ++ detect_unsorted_hits fs).foldl record_hit ⟨[], [], []⟩

/-- Model of `load_progress` once the snapshot file is known to exist: a successful
unpickle yields the stored record, a failed one is caught and the function
falls through to the empty record. -/
def load_progress (snapshotLoad : Option Progress) : Progress :=
  match snapshotLoad with
  | some pr => pr
  | none => ⟨[], [], []⟩

/-- The branch at the top of `organize_ebook_library`: load the snapshot when
the progress file exists, otherwise run the reconciliation scan. -/
def init_progress (snapshotExists : Bool) (snapshotLoad : Option Progress)
    (fs : FS) : Progress :=
  if snapshotExists then load_progress snapshotLoad
  else detect_existing_progress fs

/-- Per-file external inputs: oracle replies (already stripped, `none` for a
request error), the text excerpt a `.txt` read would produce, the scraped
search snippets (`none` for a request error), the raw dialog reply (`none`
for a dismissed dialog), and whether `os.makedirs` / `os.rename` succeed. -/
structure FileEnv where
  ollama_filename_resp : Option String
  txt_content : Option String
  ollama_content_resp : Option String
  search_snippets : Option (List String)
  ollama_search_resp : Option String
  dialog_input : Option String
  mkdir_ok : Bool
  rename_ok : Bool
deriving DecidableEq, Repr

/-- Python truthiness of an optional string (`None` and `""` are falsy),
used by every `if not genre` / `if content` test of the main loop. -/
def truthy : Option String → Bool
  | none => false
  | some s => !s.isEmpty

/-- Model of `get_genre_from_filename`: the oracle reply, with the `UNCERTAIN`
sentinel and falsy replies collapsed to no answer.  (The filename-cleaning
regexes only shape the prompt sent to the oracle, so they live outside the
model, inside the reply.) -/
def get_genre_from_filename (resp : Option String) : Option String :=
  match resp with
  | none => none
  | some genre => if genre = "UNCERTAIN" ∨ genre = "" then none else some genre

/-- Model of `get_first_pages_text`: only `.txt` files yield an excerpt; every other
extension logs a warning and returns no content. -/
def get_first_pages_text (file_path : List String) (env : FileEnv) : Option String :=
  if pyLower (path_suffix (basename file_path)) = ".txt" then env.txt_content
  else none

/-- Model of `get_genre_from_content`: no answer on empty content, otherwise the
oracle reply filtered exactly as in the filename strategy. -/
def get_genre_from_content (content : Option String) (resp : Option String) :
    Option String :=
  match content with
  | none => none
  | some c =>
    if c = "" then none
    else match resp with
      | none => none
      | some genre => if genre = "UNCERTAIN" ∨ genre = "" then none else some genre

/-- Model of `get_genre_from_online_search`: a request error or an empty match list
yields no answer; otherwise the oracle reply is filtered as usual. -/
def get_genre_from_online_search (snippets : Option (List String))
    (resp : Option String) : Option String :=
  match snippets with
  | none => none
  | some [] => none
  | some (_ :: _) =>
    match resp with
    | none => none
    | some genre => if genre = "UNCERTAIN" ∨ genre = "" then none else some genre

/-- Model of `get_genre_from_user`: returns immediately with no dialog when
interactive mode is off; otherwise the second component records that the
modal dialog was opened.  A dismissed or empty dialog yields no genre, the
`SKIP` reply maps to the UNSORTED sentinel, and any other reply is stripped
(which can produce the empty string, left to the caller's truthiness test). -/
def get_genre_from_user (interactive : Bool) (dialog : Option String) :
    Option String × Bool :=
  if !interactive then (none, false)
  else
    match dialog with
    | none => (none, true)
    | some genre =>
      if genre = "" then (none, true)
      else
        let g := genre.trim
        if g.toUpper = "SKIP" then (some UNSORTED_FOLDER, true) else (some g, true)

/-- Which strategies the main loop consulted for one file. -/
structure InvokeLog where
  used_filename_oracle : Bool
  used_content_extraction : Bool
  used_content_oracle : Bool
  used_search : Bool
  used_dialog : Bool
deriving DecidableEq, Repr

/-- The net result of step 2 of the cascade: extract a text excerpt and, when
it is truthy, consult the content oracle. -/
def strategy_content_result (file_path : List String) (env : FileEnv) :
    Option String :=
  let content := get_first_pages_text file_path env
  if truthy content then get_genre_from_content content env.ollama_content_resp
  else none

/-- The net result of step 3 of the cascade. -/
def strategy_search_result (env : FileEnv) : Option String :=
  get_genre_from_online_search env.search_snippets env.ollama_search_resp

/-- Steps 1-4 of the main loop: the strategy cascade with its short-circuit
tests, returning the genre variable as the loop leaves it, together with the
record of which strategies ran. -/
def classify_file (interactive : Bool) (file_path : List String)
    (env : FileEnv) : Option String × InvokeLog :=
  let g1 := get_genre_from_filename env.ollama_filename_resp
  if truthy g1 then (g1, ⟨true, false, false, false, false⟩)
  else
    let used_co := truthy (get_first_pages_text file_path env)
    let g2 := strategy_content_result file_path env
    if truthy g2 then (g2, ⟨true, true, used_co, false, false⟩)
    else
      let g3 := strategy_search_result env
      if truthy g3 then (g3, ⟨true, true, used_co, true, false⟩)
      else
        if interactive then
          let u := get_genre_from_user interactive env.dialog_input
          (u.1, ⟨true, true, used_co, true, u.2⟩)
        else (some UNSORTED_FOLDER, ⟨true, true, used_co, true, false⟩)

/-- Outcome of `move_to_genre_folder`: the reported success flag, the
filesystem afterwards, and the destination path when the move happened. -/
structure MoveOutcome where
  success : Bool
  fs : FS
  dest : Option (List String)
deriving DecidableEq, Repr

/-- The collision loop of `move_to_genre_folder`: try
`base(counter)ext, base(counter+1)ext, ...` until the name is free.  The
source loop is unbounded; fuel makes it total, and callers pass more fuel
than there are entries in the filesystem. -/
def find_free_name (taken : String → Bool) (base ext : String) :
    Nat → Nat → Option String
  | 0, _ => none
  | fuel + 1, counter =>
    let new_filename := base ++ "(" ++ Nat.repr counter ++ ")" ++ ext
    if taken new_filename then find_free_name taken base ext fuel (counter + 1)
    else some new_filename

/-- The collision name `stem(n)suffix` built by the rename loop. -/
def counter_name (filename : String) (n : Nat) : String :=
  path_stem filename ++ "(" ++ Nat.repr n ++ ")" ++ path_suffix filename

/-- Model of `ensure_folder_exists`: succeeds without change when the path exists,
otherwise attempts `os.makedirs` (whose success is an environment input). -/
def ensure_folder_exists (env : FileEnv) (fs : FS) (folder : List String) :
    Bool × FS :=
  if fs.pathExists folder then (true, fs)
  else if env.mkdir_ok then (true, fs.addDir folder)
  else (false, fs)

/-- Model of `move_to_genre_folder`: build the destination under the library root,
ensure the folder, dodge filename collisions with the `(n)` counter, then
rename.  On any failure the reported flag is false and the source file is
left in place (though a folder created by `ensure_folder_exists` persists). -/
def move_to_genre_folder (env : FileEnv) (fs : FS) (source_path : List String)
    (genre : String) : MoveOutcome :=
  let filename := basename source_path
  let destination_folder : List String := [genre]
  match ensure_folder_exists env fs destination_folder with
  | (false, fs1) => ⟨false, fs1, none⟩
  | (true, fs1) =>
    let dest_name? : Option String :=
      if fs1.pathExists (destination_folder ++ [filename]) then
        find_free_name
          (fun cand => fs1.pathExists (destination_folder ++ [cand]))
          (path_stem filename) (path_suffix filename) (fs1.entryCount + 1) 1
      else some filename
    match dest_name? with
    | none => ⟨false, fs1, none⟩
    | some dest_name =>
      if env.rename_ok then
        ⟨true, (fs1.removeFile source_path).addFile destination_folder dest_name,
          some (destination_folder ++ [dest_name])⟩
      else ⟨false, fs1, none⟩

/-- The mutable state of the main loop: the filesystem, the progress record,
the number of renames performed, and per-file strategy-invocation entries. -/
structure OrgState where
  fs : FS
  progress : Progress
  moves : Nat
  log : List (List String × InvokeLog)
deriving DecidableEq, Repr

/-- One iteration of the main loop of `organize_ebook_library` (lines
608-669): classify, then either move and record, record as UNDETERMINED, or
(on a failed move) change nothing. -/
def process_file (interactive : Bool) (env : FileEnv) (st : OrgState)
    (ebook_path : List String) : OrgState :=
  let filename := basename ebook_path
  let c := classify_file interactive ebook_path env
  let st1 : OrgState := { st with log := st.log ++ [(ebook_path, c.2)] }
  if truthy c.1 then
    let genre := c.1.getD ""
    let mr := move_to_genre_folder env st1.fs ebook_path genre
    if mr.success then
      { st1 with
        fs := mr.fs
        moves := st1.moves + 1
        progress := add_record st1.progress filename ebook_path genre }
    else { st1 with fs := mr.fs }
  else
    { st1 with progress := add_record st1.progress filename ebook_path "UNDETERMINED" }

/-- Model of `organize_ebook_library`: initialise the progress record (snapshot or
reconciliation), scan for all ebooks, drop the already-processed ones, and
run the per-file loop over the remainder. -/
def organize_ebook_library (interactive : Bool) (env : List String → FileEnv)
    (snapshotExists : Bool) (snapshotLoad : Option Progress) (fs : FS) :
    OrgState :=
  let pr := init_progress snapshotExists snapshotLoad fs
  let all_ebooks := get_all_ebooks fs
  let remaining_ebooks := all_ebooks.filter (fun e => e ∉ pr.processed_files)
  remaining_ebooks.foldl (fun st p => process_file interactive (env p) st p)
    ⟨fs, pr, 0, []⟩

/-- A library with a single unprocessed ebook at the root. -/
def fs_c1 : FS := ⟨[([], ["book.pdf"])]⟩

/-- An environment where every automated strategy produces no answer and the
filesystem operations succeed. -/
def env_all_none : FileEnv := ⟨none, none, none, none, none, none, true, true⟩

/-- First run on `fs_c1`: no snapshot, automated mode. -/
def run1_c1 : OrgState :=
  organize_ebook_library false (fun _ => env_all_none) false none fs_c1

/-- Second run, started on the filesystem and snapshot the first run left. -/
def run2_c1 : OrgState :=
  organize_ebook_library false (fun _ => env_all_none) true
    (some run1_c1.progress) run1_c1.fs

/-- A library whose only ebook already sits in a `Fiction` genre folder. -/
def fs_c7 : FS := ⟨[([], []), (["Fiction"], ["book.pdf"])]⟩

/-- A pre-organized library: one genre folder and one UNSORTED file. -/
def fs_c3 : FS :=
  ⟨[([], []), (["Fiction"], ["story.epub"]), (["UNSORTED"], ["mystery.pdf"])]⟩

/-- A library where the `Fantasy` folder already holds a file named like the
one about to be moved there. -/
def fs_c8 : FS := ⟨[([], ["b.pdf"]), (["Fantasy"], ["b.pdf"])]⟩

/-- The genre statistics agree with the CSV rows: the dictionary keys are
unique, the counts sum to the number of rows, and each genre's count is the
number of rows carrying that genre. -/
def stats_inv (pr : Progress) : Prop :=
  (pr.genre_stats.map (fun kv => kv.1)).Nodup ∧
  (pr.genre_stats.map (fun kv => kv.2)).sum = pr.csv_data.length ∧
  ∀ g, lookup_stat pr.genre_stats g =
    (pr.csv_data.filter (fun r => decide (r.Genre = g))).length

/-- The full path recorded for one reconciliation hit. -/
def hit_path (h0 : List String × String × String) : List String :=
  h0.1 ++ [h0.2.1]

/-- The processed set lists exactly the original paths of the CSV rows, in
order and without duplicates. -/
def csv_matches_processed (pr : Progress) : Prop :=
  pr.processed_files = pr.csv_data.map (fun r => r.OriginalPath) ∧
  pr.processed_files.Nodup

/-- A well-formed library: directory paths are unique and no directory lists
the same filename twice (true of every real filesystem). -/
def wf_fs (fs : FS) : Prop :=
  (fs.dirs.map (fun d => d.1)).Nodup ∧ ∀ d ∈ fs.dirs, d.2.Nodup

/-- No ebook file lies in a proper subdirectory of the UNSORTED folder. -/
def no_unsorted_nested_ebooks (fs : FS) : Prop :=
  ∀ d ∈ fs.dirs, d.1.take 1 = [UNSORTED_FOLDER] → ¬d.1 = [UNSORTED_FOLDER] →
    ∀ f ∈ d.2, isEbookFile f = false

/-- A library with an ebook inside a subfolder of UNSORTED: the
reconciliation scan records it twice. -/
def fs_c9 : FS :=
  ⟨[([], []), (["UNSORTED"], []), (["UNSORTED", "Sub"], ["b.pdf"])]⟩

/-! Helper lemmas shared by several claims. -/

theorem mem_add_processed_self (s : List (List String)) (p : List String) :
    p ∈ add_processed s p := by
  unfold add_processed; split
  · assumption
  · simp

theorem mem_add_processed_of_mem {s : List (List String)} {q : List String}
    (p : List String) (h : q ∈ s) : q ∈ add_processed s p := by
  unfold add_processed; split
  · exact h
  · exact List.mem_append_left _ h

theorem add_processed_of_not_mem {s : List (List String)} {p : List String}
    (h : p ∉ s) : add_processed s p = s ++ [p] := by
  unfold add_processed; split
  · exact absurd ‹p ∈ s› h
  · rfl

/-! Concrete inputs used to evaluate the two-run idempotence scenario. -/

/-- Claim C1 (refuted; evidence for the code bug): on a library with the one
root file `book.pdf`, the first automated run moves it into UNSORTED and
records the pre-move path `["book.pdf"]` as processed.  The second run's scan
finds the file at `["UNSORTED", "book.pdf"]`, which is not in the processed
set loaded from the snapshot, so the second run performs one further move,
collision-renaming the file to `book(1).pdf` — not the zero moves the claim
asserts. -/
theorem C1_second_run_performs_move :
    run1_c1.moves = 1 ∧
    ((get_all_ebooks run1_c1.fs).all
      (fun p => decide (p ∈ run1_c1.progress.processed_files))) = false ∧
    run2_c1.moves = 1 ∧
    run2_c1.fs.fileExists ["UNSORTED", "book(1).pdf"] = true := by decide

/-- Claim C7 (counterexample): when the snapshot file exists but fails to
deserialize, the run does NOT behave like a first run without a snapshot:
the latter re-derives `Fiction/book.pdf` as processed via the reconciliation
scan, while the former proceeds with entirely empty progress. -/
theorem C7_corrupt_snapshot_counterexample :
    init_progress true none fs_c7 ≠ init_progress false none fs_c7 ∧
    init_progress true none fs_c7 = ⟨[], [], []⟩ ∧
    (init_progress false none fs_c7).processed_files =
      [["Fiction", "book.pdf"]] := by decide

/-- Claim C7 (amended): a snapshot file that exists but fails to deserialize
is caught and treated as empty prior progress (empty processed set, CSV rows
and genre statistics); the reconciliation scan of genre folders runs only
when the snapshot file is absent. -/
theorem C7_corrupt_snapshot_empty_progress :
    (∀ fs : FS, init_progress true none fs = ⟨[], [], []⟩) ∧
    load_progress none = ⟨[], [], []⟩ ∧
    (∀ fs : FS, init_progress false none fs = detect_existing_progress fs) :=
  ⟨fun _ => rfl, rfl, fun _ => rfl⟩

/-- Claim C4: the cascade short-circuits.  A truthy filename-strategy result
is returned as the genre and suppresses content extraction, the content
oracle, the search and the dialog; otherwise a truthy content-strategy result
suppresses search and dialog; otherwise a truthy search result suppresses the
dialog. -/
theorem C4_cascade_short_circuit (interactive : Bool) (p : List String)
    (env : FileEnv) :
    (truthy (get_genre_from_filename env.ollama_filename_resp) = true →
      (classify_file interactive p env).1 =
        get_genre_from_filename env.ollama_filename_resp ∧
      (classify_file interactive p env).2 = ⟨true, false, false, false, false⟩) ∧
    (truthy (get_genre_from_filename env.ollama_filename_resp) = false →
      truthy (strategy_content_result p env) = true →
      (classify_file interactive p env).1 = strategy_content_result p env ∧
      (classify_file interactive p env).2.used_search = false ∧
      (classify_file interactive p env).2.used_dialog = false) ∧
    (truthy (get_genre_from_filename env.ollama_filename_resp) = false →
      truthy (strategy_content_result p env) = false →
      truthy (strategy_search_result env) = true →
      (classify_file interactive p env).1 = strategy_search_result env ∧
      (classify_file interactive p env).2.used_dialog = false) := by
  refine ⟨fun h1 => ?_, fun h1 h2 => ?_, fun h1 h2 h3 => ?_⟩ <;>
    simp [classify_file, h1, *]

/-- Claim C4 witness: with an oracle that answers `Fantasy` to the filename
prompt, the cascade returns `Fantasy` and no later strategy runs. -/
theorem C4_cascade_short_circuit_witness :
    truthy (get_genre_from_filename
      (FileEnv.mk (some "Fantasy") none none none none none true true).ollama_filename_resp) = true ∧
    (classify_file false ["b.pdf"]
      (FileEnv.mk (some "Fantasy") none none none none none true true)).1 = some "Fantasy" ∧
    (classify_file false ["b.pdf"]
      (FileEnv.mk (some "Fantasy") none none none none none true true)).2 =
      ⟨true, false, false, false, false⟩ := by
  refine ⟨by decide, ?_, ?_⟩
  · exact ((C4_cascade_short_circuit false ["b.pdf"] _).1 (by decide)).1.trans (by decide)
  · exact ((C4_cascade_short_circuit false ["b.pdf"] _).1 (by decide)).2

/-- Claim C5: in automated mode, when the filename, content and search
strategies all produce nothing, the assigned genre is exactly the UNSORTED
sentinel and the dialog is never opened; moreover `get_genre_from_user`
returns immediately, without opening a dialog, whenever interactive mode is
off. -/
theorem C5_automated_mode_guarantee (p : List String) (env : FileEnv)
    (h1 : truthy (get_genre_from_filename env.ollama_filename_resp) = false)
    (h2 : truthy (strategy_content_result p env) = false)
    (h3 : truthy (strategy_search_result env) = false) :
    (classify_file false p env).1 = some UNSORTED_FOLDER ∧
    (classify_file false p env).2.used_dialog = false ∧
    (∀ dialog, get_genre_from_user false dialog = (none, false)) := by
  refine ⟨?_, ?_, fun dialog => rfl⟩ <;> simp [classify_file, h1, h2, h3]

/-- Claim C5 witness: concrete all-failing environment in automated mode. -/
theorem C5_automated_mode_guarantee_witness :
    truthy (get_genre_from_filename env_all_none.ollama_filename_resp) = false ∧
    truthy (strategy_content_result ["b.pdf"] env_all_none) = false ∧
    truthy (strategy_search_result env_all_none) = false ∧
    (classify_file false ["b.pdf"] env_all_none).1 = some UNSORTED_FOLDER ∧
    (classify_file false ["b.pdf"] env_all_none).2.used_dialog = false :=
  ⟨by decide, by decide, by decide,
    (C5_automated_mode_guarantee ["b.pdf"] env_all_none
      (by decide) (by decide) (by decide)).1,
    (C5_automated_mode_guarantee ["b.pdf"] env_all_none
      (by decide) (by decide) (by decide)).2.1⟩

/-- Claim C6: when all four strategies yield nothing (interactive mode, the
dialog dismissed), the file is not moved, one UNDETERMINED CSV row is
appended, the UNDETERMINED genre count is bumped, and the path is added to
the processed set. -/
theorem C6_undetermined_handling (env : FileEnv) (st : OrgState)
    (p : List String)
    (h1 : truthy (get_genre_from_filename env.ollama_filename_resp) = false)
    (h2 : truthy (strategy_content_result p env) = false)
    (h3 : truthy (strategy_search_result env) = false)
    (h4 : env.dialog_input = none) :
    (process_file true env st p).fs = st.fs ∧
    (process_file true env st p).moves = st.moves ∧
    (process_file true env st p).progress.csv_data =
      st.progress.csv_data ++ [⟨basename p, p, "UNDETERMINED"⟩] ∧
    (process_file true env st p).progress.genre_stats =
      incr_stat st.progress.genre_stats "UNDETERMINED" ∧
    (process_file true env st p).progress.processed_files =
      add_processed st.progress.processed_files p ∧
    p ∈ (process_file true env st p).progress.processed_files := by
  have hc : (classify_file true p env).1 = none := by
    simp [classify_file, h1, h2, h3, h4, get_genre_from_user]
  refine ⟨?_, ?_, ?_, ?_, ?_, ?_⟩ <;>
    simp [process_file, hc, add_record, truthy, mem_add_processed_self]

/-- Claim C6 witness: dialog dismissed on a file nothing could classify. -/
theorem C6_undetermined_handling_witness :
    truthy (get_genre_from_filename env_all_none.ollama_filename_resp) = false ∧
    env_all_none.dialog_input = none ∧
    (process_file true env_all_none ⟨fs_c1, ⟨[], [], []⟩, 0, []⟩ ["book.pdf"]).fs
      = fs_c1 ∧
    (process_file true env_all_none ⟨fs_c1, ⟨[], [], []⟩, 0, []⟩
      ["book.pdf"]).progress.csv_data =
      [⟨"book.pdf", ["book.pdf"], "UNDETERMINED"⟩] :=
  ⟨by decide, rfl,
    (C6_undetermined_handling env_all_none ⟨fs_c1, ⟨[], [], []⟩, 0, []⟩
      ["book.pdf"] (by decide) (by decide) (by decide) rfl).1,
    ((C6_undetermined_handling env_all_none ⟨fs_c1, ⟨[], [], []⟩, 0, []⟩
      ["book.pdf"] (by decide) (by decide) (by decide) rfl).2.2.1).trans
      (by decide)⟩

/-! Facts about the filesystem surgery used by the mover. -/

theorem isEbookFile_nil : isEbookFile "" = false := by decide

theorem dropLast_append_getLastD {p : List String} (h : p ≠ []) :
    p.dropLast ++ [p.getLastD ""] = p := by
  induction p using List.reverseRecOn with
  | nil => exact absurd rfl h
  | append_singleton l a ih => simp

theorem fileExists_addDir (fs : FS) (d p : List String) :
    (fs.addDir d).fileExists p = fs.fileExists p := by
  simp [FS.fileExists, FS.addDir, List.any_append]

theorem get_all_ebooks_addDir (fs : FS) (d : List String) :
    get_all_ebooks (fs.addDir d) = get_all_ebooks fs := by
  simp [get_all_ebooks, FS.addDir]

theorem mem_get_all_ebooks_of_fileExists {fs : FS} {p : List String}
    (h : fs.fileExists p = true) (he : isEbookFile (basename p) = true) :
    p ∈ get_all_ebooks fs := by
  have hp : p ≠ [] := by
    intro hnil
    rw [hnil] at he
    exact absurd he (by decide)
  obtain ⟨d, hd, hdp⟩ := List.any_eq_true.1 h
  rw [Bool.and_eq_true, decide_eq_true_eq, decide_eq_true_eq] at hdp
  refine List.mem_flatMap.2 ⟨d, hd, ?_⟩
  refine List.mem_map.2 ⟨p.getLastD "", ?_, ?_⟩
  · exact List.mem_filter.2 ⟨hdp.2, he⟩
  · rw [hdp.1]; exact dropLast_append_getLastD hp

/-- The three possible outcomes of `ensure_folder_exists`. -/
theorem ensure_cases (env : FileEnv) (fs : FS) (folder : List String) :
    ensure_folder_exists env fs folder = (true, fs) ∨
    ensure_folder_exists env fs folder = (true, fs.addDir folder) ∨
    ensure_folder_exists env fs folder = (false, fs) := by
  unfold ensure_folder_exists
  split
  · exact Or.inl rfl
  · split
    · exact Or.inr (Or.inl rfl)
    · exact Or.inr (Or.inr rfl)

/-- On a failed move the filesystem is either untouched or extended by the
empty destination folder that `ensure_folder_exists` created. -/
theorem move_fail_fs (env : FileEnv) (fs : FS) (p : List String) (g : String)
    (h : (move_to_genre_folder env fs p g).success = false) :
    (move_to_genre_folder env fs p g).fs = fs ∨
    (move_to_genre_folder env fs p g).fs = fs.addDir [g] := by
  rcases ensure_cases env fs [g] with h1 | h1 | h1 <;>
    simp only [move_to_genre_folder, h1] at h ⊢
  · split
    · exact Or.inl rfl
    · rename_i dn heq
      simp only [heq] at h
      by_cases hrn : env.rename_ok = true
      · rw [if_pos hrn] at h; exact absurd h (by simp)
      · rw [if_neg hrn]; exact Or.inl rfl
  · split
    · exact Or.inr rfl
    · rename_i dn heq
      simp only [heq] at h
      by_cases hrn : env.rename_ok = true
      · rw [if_pos hrn] at h; exact absurd h (by simp)
      · rw [if_neg hrn]; exact Or.inr rfl
  · left; trivial

/-- A move fails whenever the destination folder is missing and cannot be
created, or the rename raises. -/
theorem move_fail_of_cause (env : FileEnv) (fs : FS) (p : List String)
    (g : String)
    (hc : (env.mkdir_ok = false ∧ fs.pathExists [g] = false) ∨
      env.rename_ok = false) :
    (move_to_genre_folder env fs p g).success = false := by
  rcases hc with ⟨hm, hp⟩ | hr
  · have h1 : ensure_folder_exists env fs [g] = (false, fs) := by
      unfold ensure_folder_exists; simp [hm, hp]
    simp only [move_to_genre_folder, h1]
  · rcases ensure_cases env fs [g] with h1 | h1 | h1 <;>
      simp only [move_to_genre_folder, h1]
    · split
      · rfl
      · rw [if_neg (by simp [hr])]
    · split
      · rfl
      · rw [if_neg (by simp [hr])]

/-- Claim C2: move-failure atomicity.  When the destination folder cannot be
created or the rename raises, `move_to_genre_folder` reports failure, the
source file is still at its original path, and the loop iteration changes no
progress data (no CSV row, no genre count, no processed-set entry, no move
counted), so the file is enumerated as an unprocessed ebook again. -/
theorem C2_move_failure_atomicity (interactive : Bool) (env : FileEnv)
    (st : OrgState) (p : List String)
    (hg : truthy (classify_file interactive p env).1 = true)
    (hc : (env.mkdir_ok = false ∧
        st.fs.pathExists [(classify_file interactive p env).1.getD ""] = false) ∨
      env.rename_ok = false)
    (hsrc : st.fs.fileExists p = true)
    (heb : isEbookFile (basename p) = true)
    (hnp : p ∉ st.progress.processed_files) :
    (move_to_genre_folder env st.fs p
      ((classify_file interactive p env).1.getD "")).success = false ∧
    (process_file interactive env st p).progress = st.progress ∧
    (process_file interactive env st p).moves = st.moves ∧
    (process_file interactive env st p).fs.fileExists p = true ∧
    p ∈ get_all_ebooks (process_file interactive env st p).fs ∧
    p ∉ (process_file interactive env st p).progress.processed_files := by
  have hfail := move_fail_of_cause env st.fs p
    ((classify_file interactive p env).1.getD "") hc
  have hfs := move_fail_fs env st.fs p
    ((classify_file interactive p env).1.getD "") hfail
  have hpf : process_file interactive env st p =
      { st with
        log := st.log ++ [(p, (classify_file interactive p env).2)]
        fs := (move_to_genre_folder env st.fs p
          ((classify_file interactive p env).1.getD "")).fs } := by
    simp only [process_file, hg, if_true, hfail, Bool.false_eq_true, if_false]
  have hex : (process_file interactive env st p).fs.fileExists p = true := by
    rw [hpf]
    rcases hfs with h | h <;> rw [h]
    · exact hsrc
    · rw [fileExists_addDir]; exact hsrc
  refine ⟨hfail, by rw [hpf], by rw [hpf], hex,
    mem_get_all_ebooks_of_fileExists hex heb, by rw [hpf]; exact hnp⟩

/-- Claim C2 witness: a rename failure on a file the filename oracle
classified as `Fantasy`. -/
theorem C2_move_failure_atomicity_witness :
    truthy (classify_file false ["book.pdf"]
      (FileEnv.mk (some "Fantasy") none none none none none true false)).1 = true ∧
    (FileEnv.mk (some "Fantasy") none none none none none true false).rename_ok
      = false ∧
    (move_to_genre_folder
      (FileEnv.mk (some "Fantasy") none none none none none true false) fs_c1
      ["book.pdf"]
      ((classify_file false ["book.pdf"]
        (FileEnv.mk (some "Fantasy") none none none none none true false)).1.getD "")).success
      = false ∧
    (process_file false
      (FileEnv.mk (some "Fantasy") none none none none none true false)
      ⟨fs_c1, ⟨[], [], []⟩, 0, []⟩ ["book.pdf"]).progress = ⟨[], [], []⟩ :=
  ⟨by decide, rfl,
    (C2_move_failure_atomicity false _ ⟨fs_c1, ⟨[], [], []⟩, 0, []⟩ ["book.pdf"]
      (by decide) (Or.inr rfl) (by decide) (by decide) (by decide)).1,
    (C2_move_failure_atomicity false _ ⟨fs_c1, ⟨[], [], []⟩, 0, []⟩ ["book.pdf"]
      (by decide) (Or.inr rfl) (by decide) (by decide) (by decide)).2.1⟩

/-! Membership facts about the reconciliation fold. -/

theorem mem_processed_foldl_of_mem (hits : List (List String × String × String))
    (pr : Progress) {q : List String} (h : q ∈ pr.processed_files) :
    q ∈ (hits.foldl record_hit pr).processed_files := by
  induction hits generalizing pr with
  | nil => exact h
  | cons a hits ih =>
    exact ih (record_hit pr a) (mem_add_processed_of_mem _ h)

theorem mem_processed_foldl_of_hit (hits : List (List String × String × String))
    (pr : Progress) {h0 : List String × String × String} (hh : h0 ∈ hits) :
    (h0.1 ++ [h0.2.1]) ∈ (hits.foldl record_hit pr).processed_files := by
  induction hits generalizing pr with
  | nil => exact absurd hh (List.not_mem_nil _)
  | cons a hits ih =>
    rcases List.mem_cons.1 hh with rfl | hh'
    · exact mem_processed_foldl_of_mem hits _ (mem_add_processed_self _ _)
    · exact ih _ hh'

theorem mem_csv_foldl_of_mem (hits : List (List String × String × String))
    (pr : Progress) {r : CsvRow} (h : r ∈ pr.csv_data) :
    r ∈ (hits.foldl record_hit pr).csv_data := by
  induction hits generalizing pr with
  | nil => exact h
  | cons a hits ih =>
    exact ih (record_hit pr a) (List.mem_append_left _ h)

theorem mem_csv_foldl_of_hit (hits : List (List String × String × String))
    (pr : Progress) {h0 : List String × String × String} (hh : h0 ∈ hits) :
    (⟨h0.2.1, h0.1 ++ [h0.2.1], h0.2.2⟩ : CsvRow) ∈
      (hits.foldl record_hit pr).csv_data := by
  induction hits generalizing pr with
  | nil => exact absurd hh (List.not_mem_nil _)
  | cons a hits ih =>
    rcases List.mem_cons.1 hh with rfl | hh'
    · exact mem_csv_foldl_of_mem hits _ (by simp [record_hit, add_record])
    · exact ih _ hh'

theorem hit_mem_main (fs : FS) {d : List String × List String}
    (hd : d ∈ fs.dirs) (hroot : ¬d.1 = [])
    (hgf : is_genre_folder (basename d.1) d.2 = true) {f : String}
    (hf : f ∈ d.2) (hfe : isEbookFile f = true) :
    (d.1, f, basename d.1) ∈ detect_main_hits fs := by
  unfold detect_main_hits
  refine List.mem_flatMap.2 ⟨d, hd, ?_⟩
  rw [if_neg hroot, if_pos hgf]
  exact List.mem_map.2 ⟨f, List.mem_filter.2 ⟨hf, hfe⟩, rfl⟩

theorem hit_mem_unsorted (fs : FS) {d : List String × List String}
    (hd : d ∈ fs.dirs) (hex : fs.pathExists [UNSORTED_FOLDER] = true)
    (hpre : d.1.take 1 = [UNSORTED_FOLDER]) {f : String}
    (hf : f ∈ d.2) (hfe : isEbookFile f = true) :
    (d.1, f, UNSORTED_FOLDER) ∈ detect_unsorted_hits fs := by
  unfold detect_unsorted_hits
  rw [if_pos hex]
  refine List.mem_flatMap.2 ⟨d, hd, ?_⟩
  rw [if_pos hpre]
  exact List.mem_map.2 ⟨f, List.mem_filter.2 ⟨hf, hfe⟩, rfl⟩

/-- Every loop iteration appends exactly one log entry, for its own file. -/
theorem process_file_log (interactive : Bool) (env : FileEnv) (st : OrgState)
    (p : List String) :
    (process_file interactive env st p).log =
      st.log ++ [(p, (classify_file interactive p env).2)] := by
  simp only [process_file]
  split
  · split <;> rfl
  · rfl

/-- Log entries of the loop only concern files of the processed list. -/
theorem foldl_log_mem (interactive : Bool) (env : List String → FileEnv) :
    ∀ (l : List (List String)) (st : OrgState) (q : List String × InvokeLog),
    q ∈ (l.foldl (fun s p => process_file interactive (env p) s p) st).log →
    q ∈ st.log ∨ q.1 ∈ l := by
  intro l
  induction l with
  | nil => exact fun st q h => Or.inl h
  | cons a l ih =>
    intro st q h
    rcases ih _ q h with h' | h'
    · rw [process_file_log] at h'
      rcases List.mem_append.1 h' with h'' | h''
      · exact Or.inl h''
      · right
        have : q = (a, (classify_file interactive a (env a)).2) :=
          List.mem_singleton.1 h''
        rw [this]
        exact List.mem_cons_self _ _
    · exact Or.inr (List.mem_cons_of_mem _ h')

/-- Claim C3: first-run reconciliation.  For a library directory that is not
the root, not hidden, not a system folder, not UNSORTED, and that directly
contains an ebook, every ebook file directly inside it is recorded as
processed with genre equal to the folder's name; ebook files anywhere under
the UNSORTED folder are recorded with the UNSORTED sentinel; and no strategy
is invoked on any reconciled file during the whole first run (all log
entries of the run concern unprocessed files). -/
theorem C3_reconciliation_first_run (fs : FS) (interactive : Bool)
    (env : List String → FileEnv) (d : List String × List String)
    (hd : d ∈ fs.dirs) (hroot : ¬d.1 = [])
    (hhid : pyStartsWith (basename d.1) "." = false)
    (hsys : basename d.1 ∉ system_folders)
    (huns : ¬basename d.1 = UNSORTED_FOLDER)
    (hany : d.2.any isEbookFile = true)
    (f : String) (hf : f ∈ d.2) (hfe : isEbookFile f = true) :
    (d.1 ++ [f]) ∈ (detect_existing_progress fs).processed_files ∧
    (⟨f, d.1 ++ [f], basename d.1⟩ : CsvRow) ∈
      (detect_existing_progress fs).csv_data ∧
    (fs.pathExists [UNSORTED_FOLDER] = true →
      ∀ d' ∈ fs.dirs, d'.1.take 1 = [UNSORTED_FOLDER] →
      ∀ f' ∈ d'.2, isEbookFile f' = true →
        (d'.1 ++ [f']) ∈ (detect_existing_progress fs).processed_files ∧
        (⟨f', d'.1 ++ [f'], UNSORTED_FOLDER⟩ : CsvRow) ∈
          (detect_existing_progress fs).csv_data) ∧
    (∀ q ∈ (detect_existing_progress fs).processed_files, ∀ il,
      (q, il) ∉ (organize_ebook_library interactive env false none fs).log) := by
  have hgf : is_genre_folder (basename d.1) d.2 = true := by
    unfold is_genre_folder
    rw [if_neg (by simp [hhid]), if_neg hsys, if_neg huns]
    exact hany
  have hmain := hit_mem_main fs hd hroot hgf hf hfe
  have hmain' : (d.1, f, basename d.1) ∈
      detect_main_hits fs ++ detect_unsorted_hits fs :=
    List.mem_append_left _ hmain
  refine ⟨mem_processed_foldl_of_hit _ _ hmain', mem_csv_foldl_of_hit _ _ hmain',
    ?_, ?_⟩
  · intro hex d' hd' hpre f' hf' hfe'
    have hu := hit_mem_unsorted fs hd' hex hpre hf' hfe'
    have hu' : (d'.1, f', UNSORTED_FOLDER) ∈
        detect_main_hits fs ++ detect_unsorted_hits fs :=
      List.mem_append_right _ hu
    exact ⟨mem_processed_foldl_of_hit _ _ hu', mem_csv_foldl_of_hit _ _ hu'⟩
  · intro q hq il hmem
    unfold organize_ebook_library at hmem
    simp only [init_progress, Bool.false_eq_true, if_false] at hmem
    rcases foldl_log_mem interactive env _ _ _ hmem with h | h
    · exact absurd h (List.not_mem_nil _)
    · have h2 := (List.mem_filter.1 h).2
      rw [decide_eq_true_eq] at h2
      exact h2 hq

/-- Claim C3 witness: concrete first-run reconciliation of `fs_c3`. -/
theorem C3_reconciliation_first_run_witness :
    (["Fiction"], ["story.epub"]) ∈ fs_c3.dirs ∧
    ["Fiction", "story.epub"] ∈ (detect_existing_progress fs_c3).processed_files ∧
    (⟨"story.epub", ["Fiction", "story.epub"], "Fiction"⟩ : CsvRow) ∈
      (detect_existing_progress fs_c3).csv_data ∧
    ["UNSORTED", "mystery.pdf"] ∈ (detect_existing_progress fs_c3).processed_files ∧
    (["Fiction", "story.epub"], (⟨true, true, false, true, false⟩ : InvokeLog)) ∉
      (organize_ebook_library false (fun _ => env_all_none) false none fs_c3).log := by
  have T := C3_reconciliation_first_run fs_c3 false (fun _ => env_all_none)
    (["Fiction"], ["story.epub"]) (by decide) (by decide) (by decide) (by decide)
    (by decide) (by decide) "story.epub" (by decide) (by decide)
  exact ⟨by decide, T.1, T.2.1,
    (T.2.2.1 (by decide) (["UNSORTED"], ["mystery.pdf"]) (by decide) (by decide)
      "mystery.pdf" (by decide) (by decide)).1,
    T.2.2.2 ["Fiction", "story.epub"] T.1 ⟨true, true, false, true, false⟩⟩

/-! The collision-renaming loop and the filesystem surgery of a move. -/

/-- Correctness of the bounded collision loop: a returned name is the first
free counter name at or after the starting counter. -/
theorem find_free_name_spec (taken : String → Bool) (base ext : String) :
    ∀ (fuel counter : Nat) (name : String),
    find_free_name taken base ext fuel counter = some name →
    ∃ k, name = base ++ "(" ++ Nat.repr (counter + k) ++ ")" ++ ext ∧
      taken name = false ∧
      ∀ j < k, taken (base ++ "(" ++ Nat.repr (counter + j) ++ ")" ++ ext) = true := by
  intro fuel
  induction fuel with
  | zero => intro counter name h; exact absurd h (by simp [find_free_name])
  | succ fuel ih =>
    intro counter name h
    simp only [find_free_name] at h
    cases ht : taken (base ++ "(" ++ Nat.repr counter ++ ")" ++ ext) with
    | true =>
      rw [ht] at h
      simp only [if_true] at h
      obtain ⟨k, hk1, hk2, hk3⟩ := ih (counter + 1) name h
      refine ⟨k + 1, ?_, hk2, ?_⟩
      · rw [show counter + (k + 1) = counter + 1 + k from by omega]
        exact hk1
      · intro j hj
        cases j with
        | zero => simpa using ht
        | succ j' =>
          have ht' := hk3 j' (by omega)
          rw [show counter + (j' + 1) = counter + 1 + j' from by omega]
          exact ht'
    | false =>
      rw [ht] at h
      simp only [Bool.false_eq_true, if_false, Option.some.injEq] at h
      refine ⟨0, ?_, ?_, ?_⟩
      · rw [← h]; simp
      · rw [← h]; exact ht
      · intro j hj; exact absurd hj (Nat.not_lt_zero j)

theorem removeFun_fst (p : List String) (d : List String × List String) :
    (if d.1 = p.dropLast then (d.1, d.2.erase (p.getLastD "")) else d).1 = d.1 := by
  split <;> rfl

theorem hasDir_removeFile (fs : FS) (p q : List String) :
    (fs.removeFile p).hasDir q = fs.hasDir q := by
  simp only [FS.hasDir, FS.removeFile, List.any_map]
  congr 1
  funext d
  simp only [Function.comp]
  rw [removeFun_fst]

theorem filesAt_removeFile_ne (fs : FS) (p q : List String)
    (h : ¬q = p.dropLast) : (fs.removeFile p).filesAt q = fs.filesAt q := by
  cases fs with
  | mk l =>
    unfold FS.removeFile FS.filesAt
    dsimp only
    induction l with
    | nil => rfl
    | cons d l ih =>
      simp only [List.map_cons]
      by_cases hq : d.1 = q
      · rw [List.find?_cons_of_pos _ (by rw [removeFun_fst]; simp [hq]),
          List.find?_cons_of_pos _ (by simp [hq])]
        have hd : (if d.1 = p.dropLast then (d.1, d.2.erase (p.getLastD "")) else d)
            = d := if_neg (by rw [hq]; exact h)
        rw [hd]
      · rw [List.find?_cons_of_neg _ (by rw [removeFun_fst]; simp [hq]),
          List.find?_cons_of_neg _ (by simp [hq])]
        exact ih

theorem filesAt_addFile_self (fs : FS) (p : List String) (name : String)
    (h : fs.hasDir p = true) :
    (fs.addFile p name).filesAt p = fs.filesAt p ++ [name] := by
  unfold FS.addFile
  rw [if_pos h]
  cases fs with
  | mk l =>
    unfold FS.filesAt
    dsimp only
    simp only [FS.hasDir, List.any_eq_true, decide_eq_true_eq] at h
    revert h
    induction l with
    | nil => intro h; simp at h
    | cons d l ih =>
      intro h
      simp only [List.map_cons]
      by_cases hq : d.1 = p
      · rw [List.find?_cons_of_pos _ (by simp [hq]),
          List.find?_cons_of_pos _ (by simp [hq])]
        rw [if_pos hq]
        simp
      · rw [List.find?_cons_of_neg _ (by simp [hq]),
          List.find?_cons_of_neg _ (by simp [hq])]
        apply ih
        rcases h with ⟨d0, hd0, he⟩
        rcases List.mem_cons.1 hd0 with rfl | hd0'
        · exact absurd he hq
        · exact ⟨d0, hd0', he⟩

theorem fileExists_append_of_mem_filesAt {fs : FS} {p : List String}
    {name : String} (h : name ∈ fs.filesAt p) :
    fs.fileExists (p ++ [name]) = true := by
  unfold FS.filesAt at h
  cases hf : fs.dirs.find? (fun d => decide (d.1 = p)) with
  | none => rw [hf] at h; exact absurd h (List.not_mem_nil _)
  | some d =>
    rw [hf] at h
    simp at h
    have hdp : d.1 = p := by
      have := List.find?_some hf
      simpa using this
    have hdm : d ∈ fs.dirs := List.mem_of_find?_eq_some hf
    simp only [FS.fileExists, List.any_eq_true]
    refine ⟨d, hdm, ?_⟩
    simp [hdp, h]

/-- Claim C8: collision handling.  When a move into an existing genre folder
succeeds although the plain destination name is occupied, the file is stored
under `stem(n)suffix` where `n` is the smallest positive integer whose
counter name does not exist at the destination, the moved file exists there
afterwards, and every file previously in the destination folder is still
there (the source coming from a different folder). -/
theorem C8_collision_handling (env : FileEnv) (fs : FS) (srcDir : List String)
    (filename g : String)
    (hne : ¬srcDir = [g])
    (hdir : fs.hasDir [g] = true)
    (hcol : fs.pathExists [g, filename] = true)
    (hsucc : (move_to_genre_folder env fs (srcDir ++ [filename]) g).success = true) :
    ∃ n, 1 ≤ n ∧
      (move_to_genre_folder env fs (srcDir ++ [filename]) g).dest =
        some [g, counter_name filename n] ∧
      fs.pathExists [g, counter_name filename n] = false ∧
      (∀ m, 1 ≤ m → m < n → fs.pathExists [g, counter_name filename m] = true) ∧
      (move_to_genre_folder env fs (srcDir ++ [filename]) g).fs.fileExists
        [g, counter_name filename n] = true ∧
      ∀ f' ∈ fs.filesAt [g],
        f' ∈ (move_to_genre_folder env fs (srcDir ++ [filename]) g).fs.filesAt [g] := by
  have hbn : basename (srcDir ++ [filename]) = filename := by simp [basename]
  have hens : ensure_folder_exists env fs [g] = (true, fs) := by
    unfold ensure_folder_exists
    rw [if_pos (show fs.pathExists [g] = true by simp [FS.pathExists, hdir])]
  simp only [move_to_genre_folder, hens, hbn] at hsucc ⊢
  rw [if_pos (show fs.pathExists ([g] ++ [filename]) = true by simpa using hcol)]
    at hsucc ⊢
  simp only [List.singleton_append] at hsucc ⊢
  cases hfn : find_free_name (fun cand => fs.pathExists [g, cand])
      (path_stem filename) (path_suffix filename) (fs.entryCount + 1) 1 with
  | none => rw [hfn] at hsucc; simp at hsucc
  | some nm =>
    cases hrn : env.rename_ok with
    | false => rw [hfn] at hsucc; simp [hrn] at hsucc
    | true =>
      obtain ⟨k, hk1, hk2, hk3⟩ := find_free_name_spec _ _ _ _ _ _ hfn
      have hnm : nm = counter_name filename (1 + k) := hk1
      refine ⟨1 + k, by omega, ?_, ?_, ?_, ?_, ?_⟩
      · simp [hrn, ← hnm]
      · have hk2' : fs.pathExists [g, nm] = false := hk2
        rw [← hnm]
        exact hk2'
      · intro m h1m hmk
        have ht := hk3 (m - 1) (by omega)
        rw [show 1 + (m - 1) = m from by omega] at ht
        exact ht
      · have h4 : nm ∈
            ((fs.removeFile (srcDir ++ [filename])).addFile [g] nm).filesAt [g] := by
          rw [filesAt_addFile_self _ _ _ (by rw [hasDir_removeFile]; exact hdir)]
          simp
        have h5 := fileExists_append_of_mem_filesAt h4
        simp only [hrn, if_true]
        simp only [← hnm]
        exact h5
      · intro f' hf'
        simp only [hrn, if_true]
        rw [filesAt_addFile_self _ _ _ (by rw [hasDir_removeFile]; exact hdir)]
        have hdl : (srcDir ++ [filename]).dropLast = srcDir := by simp
        rw [filesAt_removeFile_ne _ _ _ (by rw [hdl]; exact fun hh => hne hh.symm)]
        exact List.mem_append_left _ hf'

/-- Claim C8 witness: moving the second `b.pdf` into `Fantasy` renames it to
`b(1).pdf` and both files exist at the destination. -/
theorem C8_collision_handling_witness :
    (move_to_genre_folder env_all_none fs_c8 ["b.pdf"] "Fantasy").success = true ∧
    (∃ n, 1 ≤ n ∧
      (move_to_genre_folder env_all_none fs_c8 ["b.pdf"] "Fantasy").dest =
        some ["Fantasy", counter_name "b.pdf" n] ∧
      fs_c8.pathExists ["Fantasy", counter_name "b.pdf" n] = false ∧
      (∀ m, 1 ≤ m → m < n →
        fs_c8.pathExists ["Fantasy", counter_name "b.pdf" m] = true) ∧
      (move_to_genre_folder env_all_none fs_c8 ["b.pdf"] "Fantasy").fs.fileExists
        ["Fantasy", counter_name "b.pdf" n] = true ∧
      ∀ f' ∈ fs_c8.filesAt ["Fantasy"],
        f' ∈ (move_to_genre_folder env_all_none fs_c8 ["b.pdf"] "Fantasy").fs.filesAt
          ["Fantasy"]) ∧
    (move_to_genre_folder env_all_none fs_c8 ["b.pdf"] "Fantasy").dest =
      some ["Fantasy", "b(1).pdf"] ∧
    (move_to_genre_folder env_all_none fs_c8 ["b.pdf"] "Fantasy").fs.fileExists
      ["Fantasy", "b.pdf"] = true ∧
    (move_to_genre_folder env_all_none fs_c8 ["b.pdf"] "Fantasy").fs.fileExists
      ["Fantasy", "b(1).pdf"] = true :=
  ⟨by decide,
    C8_collision_handling env_all_none fs_c8 [] "b.pdf" "Fantasy" (by decide)
      (by decide) (by decide) (by decide),
    by decide, by decide, by decide⟩

/-! Consistency of the genre-statistics dictionary with the CSV row list. -/

theorem map_fst_incr_present (stats : List (String × Nat)) (g : String) :
    ((stats.map (fun kv => if kv.1 = g then (kv.1, kv.2 + 1) else kv)).map
      (fun kv => kv.1)) = stats.map (fun kv => kv.1) := by
  rw [List.map_map]
  apply List.map_congr_left
  intro kv _
  simp only [Function.comp]
  split <;> rfl

theorem keys_nodup_incr_stat (stats : List (String × Nat)) (g : String)
    (hk : (stats.map (fun kv => kv.1)).Nodup) :
    ((incr_stat stats g).map (fun kv => kv.1)).Nodup := by
  unfold incr_stat
  split
  · rw [map_fst_incr_present]; exact hk
  · rename_i h
    rw [List.map_append, List.nodup_append]
    refine ⟨hk, by simp, ?_⟩
    intro a ha hb
    simp only [List.map_cons, List.map_nil, List.mem_singleton] at hb
    subst hb
    simp only [List.mem_map] at ha
    obtain ⟨kv, hkv, hkv1⟩ := ha
    exact h (List.any_eq_true.2 ⟨kv, hkv, by simp [hkv1]⟩)

theorem sum_incr_present : ∀ (stats : List (String × Nat)) (g : String),
    (stats.map (fun kv => kv.1)).Nodup →
    stats.any (fun kv => decide (kv.1 = g)) = true →
    ((stats.map (fun kv => if kv.1 = g then (kv.1, kv.2 + 1) else kv)).map
      (fun kv => kv.2)).sum = (stats.map (fun kv => kv.2)).sum + 1 := by
  intro stats g
  induction stats with
  | nil => intro _ h; simp at h
  | cons kv rest ih =>
    intro hk h
    have hkc : (kv.1 :: rest.map (fun x => x.1)).Nodup := by
      simpa only [List.map_cons] using hk
    by_cases hkv : kv.1 = g
    · have hrest : rest.map (fun x => if x.1 = g then (x.1, x.2 + 1) else x)
          = rest := by
        have hkn := (List.nodup_cons.1 hkc).1
        have hptw : ∀ x ∈ rest, (if x.1 = g then (x.1, x.2 + 1) else x) = x := by
          intro x hx
          rw [if_neg]
          intro hxg
          exact hkn (by
            rw [hkv, ← hxg]
            exact List.mem_map.2 ⟨x, hx, rfl⟩)
        exact (List.map_congr_left hptw).trans (List.map_id rest)
      simp only [List.map_cons, if_pos hkv, hrest, List.sum_cons]
      omega
    · have h' : rest.any (fun x => decide (x.1 = g)) = true := by
        simp only [List.any_cons] at h
        simpa [hkv] using h
      have hk' : (rest.map (fun x => x.1)).Nodup := (List.nodup_cons.1 hkc).2
      simp only [List.map_cons, if_neg hkv, List.sum_cons]
      rw [ih hk' h']
      omega

theorem sum_incr_stat (stats : List (String × Nat)) (g : String)
    (hk : (stats.map (fun kv => kv.1)).Nodup) :
    ((incr_stat stats g).map (fun kv => kv.2)).sum =
      (stats.map (fun kv => kv.2)).sum + 1 := by
  unfold incr_stat
  split
  · exact sum_incr_present stats g hk (by assumption)
  · simp

theorem lookup_incr_present : ∀ (stats : List (String × Nat)) (g : String),
    stats.any (fun kv => decide (kv.1 = g)) = true →
    lookup_stat (stats.map (fun kv => if kv.1 = g then (kv.1, kv.2 + 1) else kv)) g
      = lookup_stat stats g + 1 := by
  intro stats g
  induction stats with
  | nil => intro h; simp at h
  | cons kv rest ih =>
    intro h
    by_cases hkv : kv.1 = g
    · simp only [List.map_cons, if_pos hkv]
      unfold lookup_stat
      rw [List.find?_cons_of_pos _ (by simp [hkv]),
        List.find?_cons_of_pos _ (by simp [hkv])]
      simp
    · have h' : rest.any (fun x => decide (x.1 = g)) = true := by
        simp only [List.any_cons] at h
        simpa [hkv] using h
      simp only [List.map_cons, if_neg hkv]
      unfold lookup_stat at ih ⊢
      rw [List.find?_cons_of_neg _ (by simp [hkv]),
        List.find?_cons_of_neg _ (by simp [hkv])]
      exact ih h'

theorem lookup_incr_absent : ∀ (stats : List (String × Nat)) (g : String),
    ¬stats.any (fun kv => decide (kv.1 = g)) = true →
    lookup_stat (stats ++ [(g, 1)]) g = lookup_stat stats g + 1 := by
  intro stats g
  induction stats with
  | nil => intro _; simp [lookup_stat, List.find?]
  | cons kv rest ih =>
    intro h
    have hkv : ¬kv.1 = g := fun hkg =>
      h (List.any_eq_true.2 ⟨kv, List.mem_cons_self _ _, by simp [hkg]⟩)
    have h' : ¬rest.any (fun x => decide (x.1 = g)) = true := fun hr =>
      h (by simp [List.any_cons, hr])
    unfold lookup_stat at ih ⊢
    rw [List.cons_append, List.find?_cons_of_neg _ (by simp [hkv]),
      List.find?_cons_of_neg _ (by simp [hkv])]
    exact ih h'

theorem lookup_incr_self (stats : List (String × Nat)) (g : String) :
    lookup_stat (incr_stat stats g) g = lookup_stat stats g + 1 := by
  unfold incr_stat
  split
  · exact lookup_incr_present stats g (by assumption)
  · exact lookup_incr_absent stats g (by assumption)

theorem lookup_map_incr_ne : ∀ (stats : List (String × Nat)) (g g' : String),
    ¬g' = g →
    lookup_stat (stats.map (fun kv => if kv.1 = g then (kv.1, kv.2 + 1) else kv)) g'
      = lookup_stat stats g' := by
  intro stats g g' hne
  induction stats with
  | nil => rfl
  | cons kv rest ih =>
    by_cases hkv : kv.1 = g'
    · have hkg : ¬kv.1 = g := by rw [hkv]; exact hne
      simp only [List.map_cons, if_neg hkg]
      unfold lookup_stat
      rw [List.find?_cons_of_pos _ (by simp [hkv]),
        List.find?_cons_of_pos _ (by simp [hkv])]
    · simp only [List.map_cons]
      unfold lookup_stat at ih ⊢
      rw [List.find?_cons_of_neg _ (by split <;> simp [hkv]),
        List.find?_cons_of_neg _ (by simp [hkv])]
      exact ih

theorem lookup_append_ne : ∀ (stats : List (String × Nat)) (g g' : String),
    ¬g' = g →
    lookup_stat (stats ++ [(g, 1)]) g' = lookup_stat stats g' := by
  intro stats g g' hne
  induction stats with
  | nil =>
    unfold lookup_stat
    rw [List.nil_append,
      List.find?_cons_of_neg _ (by simp; exact fun h => hne h.symm)]
  | cons kv rest ih =>
    unfold lookup_stat at ih ⊢
    rw [List.cons_append]
    by_cases hkv : kv.1 = g'
    · rw [List.find?_cons_of_pos _ (by simp [hkv]),
        List.find?_cons_of_pos _ (by simp [hkv])]
    · rw [List.find?_cons_of_neg _ (by simp [hkv]),
        List.find?_cons_of_neg _ (by simp [hkv])]
      exact ih

theorem lookup_incr_ne (stats : List (String × Nat)) (g g' : String)
    (hne : ¬g' = g) :
    lookup_stat (incr_stat stats g) g' = lookup_stat stats g' := by
  unfold incr_stat
  split
  · exact lookup_map_incr_ne stats g g' hne
  · exact lookup_append_ne stats g g' hne

/-- Every recording step (CSV row append plus one genre-count bump)
preserves the statistics invariant. -/
theorem stats_inv_add_record (pr : Progress) (fn : String) (path : List String)
    (g : String) (h : stats_inv pr) : stats_inv (add_record pr fn path g) := by
  obtain ⟨hk, hs, hl⟩ := h
  unfold stats_inv add_record
  dsimp only
  refine ⟨keys_nodup_incr_stat _ _ hk, ?_, ?_⟩
  · rw [sum_incr_stat _ _ hk, hs]
    simp
  · intro g'
    by_cases hg : g' = g
    · subst hg
      rw [lookup_incr_self, hl g']
      simp [List.filter_append]
    · rw [lookup_incr_ne _ _ _ hg, hl g']
      simp [List.filter_append, show ¬g = g' from fun hh => hg hh.symm]

theorem stats_inv_empty : stats_inv ⟨[], [], []⟩ :=
  ⟨List.nodup_nil, rfl, fun _ => rfl⟩

theorem stats_inv_foldl (hits : List (List String × String × String)) :
    ∀ pr, stats_inv pr → stats_inv (hits.foldl record_hit pr) := by
  induction hits with
  | nil => exact fun pr h => h
  | cons a hits ih =>
    intro pr h
    exact ih _ (stats_inv_add_record _ _ _ _ h)

/-- Claim C10: genre-statistics consistency.  The invariant (unique keys,
counts summing to the CSV length, per-genre count equal to the number of
rows with that genre) holds of the empty progress record, of every
reconciliation result, and is preserved by every iteration of the main
loop. -/
theorem C10_genre_stats_consistency :
    stats_inv ⟨[], [], []⟩ ∧
    (∀ fs, stats_inv (detect_existing_progress fs)) ∧
    (∀ interactive env st p, stats_inv st.progress →
      stats_inv (process_file interactive env st p).progress) := by
  refine ⟨stats_inv_empty, ?_, ?_⟩
  · intro fs
    exact stats_inv_foldl _ _ stats_inv_empty
  · intro interactive env st p h
    simp only [process_file]
    split
    · split
      · exact stats_inv_add_record _ _ _ _ h
      · exact h
    · exact stats_inv_add_record _ _ _ _ h

/-- Claim C10 witness: the invariant evaluated after reconciling `fs_c3` and
then processing one further file. -/
theorem C10_genre_stats_consistency_witness :
    stats_inv (detect_existing_progress fs_c3) ∧
    stats_inv (process_file false env_all_none
      ⟨fs_c1, detect_existing_progress fs_c3, 0, []⟩ ["book.pdf"]).progress :=
  ⟨C10_genre_stats_consistency.2.1 fs_c3,
    C10_genre_stats_consistency.2.2 false env_all_none
      ⟨fs_c1, detect_existing_progress fs_c3, 0, []⟩ ["book.pdf"]
      (C10_genre_stats_consistency.2.1 fs_c3)⟩

/-! Correspondence between the CSV row list and the processed set. -/

/-- Claim C9 (counterexample): reconciling a library whose UNSORTED folder
contains a subfolder with an ebook yields two CSV rows (genres `Sub` and
`UNSORTED`) for a single processed path, so the row count differs from the
processed-set size and the path has two rows. -/
theorem C9_csv_processed_counterexample :
    ¬((detect_existing_progress fs_c9).csv_data.length =
      (detect_existing_progress fs_c9).processed_files.length) ∧
    (detect_existing_progress fs_c9).csv_data.length = 2 ∧
    (detect_existing_progress fs_c9).processed_files.length = 1 ∧
    (detect_existing_progress fs_c9).csv_data =
      [⟨"b.pdf", ["UNSORTED", "Sub", "b.pdf"], "Sub"⟩,
       ⟨"b.pdf", ["UNSORTED", "Sub", "b.pdf"], UNSORTED_FOLDER⟩] := by decide

theorem cmp_add_record {pr : Progress} (fn : String) {path : List String}
    (g : String) (h : csv_matches_processed pr)
    (hnp : path ∉ pr.processed_files) :
    csv_matches_processed (add_record pr fn path g) := by
  obtain ⟨h1, h2⟩ := h
  unfold csv_matches_processed add_record
  dsimp only
  rw [add_processed_of_not_mem hnp]
  constructor
  · simp [h1]
  · simp [List.nodup_append, h2, hnp]

theorem cmp_foldl (hits : List (List String × String × String)) :
    ∀ pr, csv_matches_processed pr →
    (∀ h0 ∈ hits, hit_path h0 ∉ pr.processed_files) →
    (hits.map hit_path).Nodup →
    csv_matches_processed (hits.foldl record_hit pr) := by
  induction hits with
  | nil => intro pr h _ _; exact h
  | cons a hits ih =>
    intro pr h hfresh hnd
    have hna := hfresh a (List.mem_cons_self _ _)
    have hcons := List.nodup_cons.1 (by simpa only [List.map_cons] using hnd)
    apply ih
    · exact cmp_add_record _ _ h hna
    · intro h0 hh0
      rw [show (record_hit pr a).processed_files =
          pr.processed_files ++ [hit_path a] from by
        unfold record_hit add_record
        dsimp only
        exact add_processed_of_not_mem hna]
      intro hmem
      rcases List.mem_append.1 hmem with hm | hm
      · exact hfresh h0 (List.mem_cons_of_mem _ hh0) hm
      · have heq : hit_path h0 = hit_path a := List.mem_singleton.1 hm
        exact hcons.1 (List.mem_map.2 ⟨h0, hh0, heq⟩)
    · exact hcons.2

theorem main_hit_mem_shape {fs : FS} {h0 : List String × String × String}
    (h : h0 ∈ detect_main_hits fs) :
    ∃ d ∈ fs.dirs, ¬d.1 = [] ∧ is_genre_folder (basename d.1) d.2 = true ∧
      ∃ x ∈ d.2, isEbookFile x = true ∧ h0 = (d.1, x, basename d.1) := by
  unfold detect_main_hits at h
  obtain ⟨d, hd, hin⟩ := List.mem_flatMap.1 h
  refine ⟨d, hd, ?_⟩
  by_cases h1 : d.1 = []
  · rw [if_pos h1] at hin; exact absurd hin (List.not_mem_nil _)
  · rw [if_neg h1] at hin
    by_cases h2 : is_genre_folder (basename d.1) d.2 = true
    · rw [if_pos h2] at hin
      obtain ⟨x, hx, hx2⟩ := List.mem_map.1 hin
      have hxf := List.mem_filter.1 hx
      exact ⟨h1, h2, x, hxf.1, hxf.2, hx2.symm⟩
    · rw [if_neg h2] at hin; exact absurd hin (List.not_mem_nil _)

theorem unsorted_hit_mem_shape {fs : FS} {h0 : List String × String × String}
    (h : h0 ∈ detect_unsorted_hits fs) :
    ∃ d ∈ fs.dirs, d.1.take 1 = [UNSORTED_FOLDER] ∧
      ∃ x ∈ d.2, isEbookFile x = true ∧ h0 = (d.1, x, UNSORTED_FOLDER) := by
  unfold detect_unsorted_hits at h
  by_cases hex : fs.pathExists [UNSORTED_FOLDER] = true
  · rw [if_pos hex] at h
    obtain ⟨d, hd, hin⟩ := List.mem_flatMap.1 h
    refine ⟨d, hd, ?_⟩
    by_cases hpre : d.1.take 1 = [UNSORTED_FOLDER]
    · rw [if_pos hpre] at hin
      obtain ⟨x, hx, hx2⟩ := List.mem_map.1 hin
      have hxf := List.mem_filter.1 hx
      exact ⟨hpre, x, hxf.1, hxf.2, hx2.symm⟩
    · rw [if_neg hpre] at hin; exact absurd hin (List.not_mem_nil _)
  · rw [if_neg hex] at h; exact absurd h (List.not_mem_nil _)

theorem concat_path_inj {a b : List String} {x y : String}
    (h : a ++ [x] = b ++ [y]) : a = b ∧ x = y := by
  have := List.append_inj' h (by simp)
  exact ⟨this.1, by simpa using this.2⟩

theorem main_hits_paths_nodup (fs : FS) (hwf : wf_fs fs) :
    ((detect_main_hits fs).map hit_path).Nodup := by
  unfold detect_main_hits
  rw [List.map_flatMap]
  rw [List.nodup_flatMap]
  constructor
  · intro d hd
    split
    · simp
    · split
      · rw [List.map_map]
        apply List.Nodup.map
        · intro a b hab
          have := concat_path_inj (a := d.1) (b := d.1) hab
          exact this.2
        · exact (hwf.2 d hd).filter _
      · simp
  · have hp : fs.dirs.Pairwise (fun a b => ¬a.1 = b.1) := by
      have hnd := hwf.1
      rw [List.Nodup, List.pairwise_map] at hnd
      exact hnd
    refine hp.imp ?_
    intro a b hab q hqa hqb
    have ha' : ∃ x, q = a.1 ++ [x] := by
      revert hqa
      dsimp only
      split
      · intro hqa; exact absurd hqa (List.not_mem_nil _)
      · split
        · intro hqa
          rw [List.map_map] at hqa
          obtain ⟨x, _, hx2⟩ := List.mem_map.1 hqa
          exact ⟨x, hx2.symm⟩
        · intro hqa; exact absurd hqa (List.not_mem_nil _)
    have hb' : ∃ y, q = b.1 ++ [y] := by
      revert hqb
      dsimp only
      split
      · intro hqb; exact absurd hqb (List.not_mem_nil _)
      · split
        · intro hqb
          rw [List.map_map] at hqb
          obtain ⟨y, _, hy2⟩ := List.mem_map.1 hqb
          exact ⟨y, hy2.symm⟩
        · intro hqb; exact absurd hqb (List.not_mem_nil _)
    obtain ⟨x, hx⟩ := ha'
    obtain ⟨y, hy⟩ := hb'
    exact hab (concat_path_inj (hx.symm.trans hy)).1

theorem unsorted_hits_paths_nodup (fs : FS) (hwf : wf_fs fs) :
    ((detect_unsorted_hits fs).map hit_path).Nodup := by
  unfold detect_unsorted_hits
  split
  · rw [List.map_flatMap, List.nodup_flatMap]
    constructor
    · intro d hd
      split
      · rw [List.map_map]
        apply List.Nodup.map
        · intro a b hab
          exact (concat_path_inj (a := d.1) (b := d.1) hab).2
        · exact (hwf.2 d hd).filter _
      · simp
    · have hp : fs.dirs.Pairwise (fun a b => ¬a.1 = b.1) := by
        have hnd := hwf.1
        rw [List.Nodup, List.pairwise_map] at hnd
        exact hnd
      refine hp.imp ?_
      intro a b hab q hqa hqb
      have ha' : ∃ x, q = a.1 ++ [x] := by
        revert hqa
        dsimp only
        split
        · intro hqa
          rw [List.map_map] at hqa
          obtain ⟨x, _, hx2⟩ := List.mem_map.1 hqa
          exact ⟨x, hx2.symm⟩
        · intro hqa; exact absurd hqa (List.not_mem_nil _)
      have hb' : ∃ y, q = b.1 ++ [y] := by
        revert hqb
        dsimp only
        split
        · intro hqb
          rw [List.map_map] at hqb
          obtain ⟨y, _, hy2⟩ := List.mem_map.1 hqb
          exact ⟨y, hy2.symm⟩
        · intro hqb; exact absurd hqb (List.not_mem_nil _)
      obtain ⟨x, hx⟩ := ha'
      obtain ⟨y, hy⟩ := hb'
      exact hab (concat_path_inj (hx.symm.trans hy)).1
  · simp

theorem is_genre_folder_unsorted (files : List String) :
    is_genre_folder UNSORTED_FOLDER files = false := by
  unfold is_genre_folder
  rw [if_neg (by decide), if_neg (by decide), if_pos rfl]

theorem main_unsorted_paths_disjoint (fs : FS) (hwf : wf_fs fs)
    (hU : no_unsorted_nested_ebooks fs) :
    List.Disjoint ((detect_main_hits fs).map hit_path)
      ((detect_unsorted_hits fs).map hit_path) := by
  intro q hqm hqu
  obtain ⟨h0, h0m, hptm⟩ := List.mem_map.1 hqm
  obtain ⟨d, hd, hroot, hgf, x, hx, hxe, hh0⟩ := main_hit_mem_shape h0m
  obtain ⟨h0', h0u, hptu⟩ := List.mem_map.1 hqu
  obtain ⟨d', hd', hpre, y, hy, hye, hh0'⟩ := unsorted_hit_mem_shape h0u
  have hq1 : q = d.1 ++ [x] := by rw [← hptm, hh0]; rfl
  have hq2 : q = d'.1 ++ [y] := by rw [← hptu, hh0']; rfl
  obtain ⟨hdd, hxy⟩ := concat_path_inj (hq1.symm.trans hq2)
  have hdeq : d = d' :=
    List.inj_on_of_nodup_map hwf.1 hd hd' hdd
  subst hdeq
  by_cases hdu : d.1 = [UNSORTED_FOLDER]
  · have hbn : basename d.1 = UNSORTED_FOLDER := by rw [hdu]; rfl
    rw [hbn, is_genre_folder_unsorted] at hgf
    exact absurd hgf (by simp)
  · have hfalse := hU d hd hpre hdu x hx
    rw [hxe] at hfalse
    exact absurd hfalse (by simp)

theorem detect_hits_paths_nodup (fs : FS) (hwf : wf_fs fs)
    (hU : no_unsorted_nested_ebooks fs) :
    (((detect_main_hits fs ++ detect_unsorted_hits fs).map hit_path)).Nodup := by
  rw [List.map_append, List.nodup_append]
  exact ⟨main_hits_paths_nodup fs hwf, unsorted_hits_paths_nodup fs hwf,
    main_unsorted_paths_disjoint fs hwf hU⟩

/-- Claim C9 (amended): for a well-formed library with no ebook files in
proper subdirectories of the UNSORTED folder, reconciliation produces a CSV
list whose original paths are exactly the processed set; the per-file loop
preserves this correspondence for every unprocessed file; and the
correspondence implies that the row count equals the processed-set size and
that each processed path has exactly one CSV row. -/
theorem C9_csv_processed_correspondence :
    (∀ fs, wf_fs fs → no_unsorted_nested_ebooks fs →
      csv_matches_processed (detect_existing_progress fs)) ∧
    (∀ interactive env st p, csv_matches_processed st.progress →
      p ∉ st.progress.processed_files →
      csv_matches_processed (process_file interactive env st p).progress) ∧
    (∀ pr, csv_matches_processed pr →
      pr.csv_data.length = pr.processed_files.length ∧
      ∀ p ∈ pr.processed_files, ∃! r, r ∈ pr.csv_data ∧ r.OriginalPath = p) := by
  refine ⟨?_, ?_, ?_⟩
  · intro fs hwf hU
    unfold detect_existing_progress
    apply cmp_foldl
    · exact ⟨rfl, List.nodup_nil⟩
    · intro h0 _
      exact List.not_mem_nil _
    · exact detect_hits_paths_nodup fs hwf hU
  · intro interactive env st p h hnp
    simp only [process_file]
    split
    · split
      · exact cmp_add_record _ _ h hnp
      · exact h
    · exact cmp_add_record _ _ h hnp
  · intro pr h
    obtain ⟨h1, h2⟩ := h
    constructor
    · rw [h1]; simp
    · intro p hp
      rw [h1] at hp
      obtain ⟨r, hr, hrp⟩ := List.mem_map.1 hp
      refine ⟨r, ⟨hr, hrp⟩, ?_⟩
      rintro r' ⟨hr', hrp'⟩
      have hnd : (pr.csv_data.map (fun row => row.OriginalPath)).Nodup := by
        rw [← h1]; exact h2
      exact List.inj_on_of_nodup_map hnd hr' hr (by rw [hrp', hrp])

/-- Claim C9 witness: the amended correspondence evaluated on `fs_c3` and on
one loop step from the empty record. -/
theorem C9_csv_processed_correspondence_witness :
    csv_matches_processed (detect_existing_progress fs_c3) ∧
    (detect_existing_progress fs_c3).csv_data.length =
      (detect_existing_progress fs_c3).processed_files.length ∧
    csv_matches_processed (process_file false env_all_none
      ⟨fs_c1, ⟨[], [], []⟩, 0, []⟩ ["book.pdf"]).progress :=
  ⟨C9_csv_processed_correspondence.1 fs_c3 (by unfold wf_fs; decide)
      (by unfold no_unsorted_nested_ebooks; decide),
    (C9_csv_processed_correspondence.2.2 _
      (C9_csv_processed_correspondence.1 fs_c3 (by unfold wf_fs; decide)
        (by unfold no_unsorted_nested_ebooks; decide))).1,
    C9_csv_processed_correspondence.2.1 false env_all_none
      ⟨fs_c1, ⟨[], [], []⟩, 0, []⟩ ["book.pdf"] ⟨rfl, List.nodup_nil⟩
      (List.not_mem_nil _)⟩

end EbookOrganizer
